import Mathlib

/-!
Verification development for the trading-terminal core:
series math (`ema`, `rsi`, `atr` in backend/indicators.py), the
band-tracking trend indicator (`supertrend`), and the trade lifecycle
manager (backend/trade_manager.py).

Modelling conventions (shallow embedding):
* floating-point numbers are modelled as exact rationals `ℚ`;
* NaN (pandas "undefined") is modelled as `none : Option ℚ`;
* pandas `Series.ewm(adjust=False, ignore_na=False, min_periods=0).mean()`
  is modelled by `ewmMean`, which follows the pandas exponentially
  weighted aggregation loop: the running weighted average starts at the
  first observation, a NaN input leaves the average unchanged but decays
  the accumulated old weight, and the output at each position is the
  running average (NaN until the first observation);
* Python `round(x, n)` (banker's rounding, ties to even) is `pyRound`;
* wall-clock "now" and the timezone-converted local times are passed as
  explicit parameters to the trade-manager operations.
-/

/-- State of the pandas exponentially-weighted mean loop:
the running weighted average (`none` before the first observation)
and the accumulated weight of the old average. -/
structure EwmState where
  wavg : Option ℚ
  oldWt : ℚ
deriving Repr, DecidableEq

/-- One step of the pandas ewm loop with `adjust=False`, `ignore_na=False`:
new weight is `α`, the old weight decays by `1 - α` each step and is reset
to `1` after each observation. -/
def ewmStep (α : ℚ) (s : EwmState) (x : Option ℚ) : EwmState :=
  match s.wavg, x with
  | some w, some v =>
      let ow := s.oldWt * (1 - α)
      { wavg := some ((ow * w + α * v) / (ow + α)), oldWt := 1 }
  | some _, none => { wavg := s.wavg, oldWt := s.oldWt * (1 - α) }
  | none, some v => { wavg := some v, oldWt := s.oldWt }
  | none, none => s

/-- Run the ewm loop, emitting the running average after each input. -/
def ewmList (α : ℚ) (s : EwmState) : List (Option ℚ) → List (Option ℚ)
  | [] => []
  | x :: xs =>
      let s' := ewmStep α s x
      s'.wavg :: ewmList α s' xs

/-- Model of `series.ewm(..., adjust=False).mean()` with smoothing factor `α`. -/
def ewmMean (α : ℚ) (xs : List (Option ℚ)) : List (Option ℚ) :=
  ewmList α { wavg := none, oldWt := 1 } xs

/-- Model of `ema(series, length)` from indicators.py:
`series.ewm(span=length, adjust=False).mean()`, i.e. `α = 2/(length+1)`. -/
def ema (series : List ℚ) (length : ℕ) : List (Option ℚ) :=
  ewmMean (2 / ((length : ℚ) + 1)) (series.map some)

/-- Tail of `series.diff()`: successive differences after the first NaN. -/
def diffAux (prev : ℚ) : List ℚ → List (Option ℚ)
  | [] => []
  | x :: xs => some (x - prev) :: diffAux x xs

/-- Model of `series.diff()`: first element NaN, then differences. -/
def diff : List ℚ → List (Option ℚ)
  | [] => []
  | x :: xs => none :: diffAux x xs

/-- Elementwise division of two NaN-carrying series (as in `avg_gain / avg_loss`);
the denominators fed to it in `rsi` are never `some 0` because zeros were
replaced by NaN first. -/
def optDiv (a b : Option ℚ) : Option ℚ :=
  match a, b with
  | some x, some y => some (x / y)
  | _, _ => none

/-- Model of `avg_loss.replace(0, np.nan)`, applied elementwise. -/
def replaceZeroNaN (xs : List (Option ℚ)) : List (Option ℚ) :=
  xs.map (fun o =>
    match o with
    | some q => if q = 0 then none else some q
    | none => none)

/-- Wilder-smoothed average gain used inside `rsi`
(`gain.ewm(com=length-1, adjust=False).mean()`, i.e. `α = 1/length`). -/
def rsiAvgGain (series : List ℚ) (length : ℕ) : List (Option ℚ) :=
  let delta := diff series
  let gain := delta.map (Option.map fun d => max d 0)
  ewmMean (1 / (length : ℚ)) gain

/-- Wilder-smoothed average loss used inside `rsi`
(`loss = -delta.clip(upper=0)`, then the same ewm). -/
def rsiAvgLoss (series : List ℚ) (length : ℕ) : List (Option ℚ) :=
  let delta := diff series
  let loss := delta.map (Option.map fun d => max (-d) 0)
  ewmMean (1 / (length : ℚ)) loss

/-- Model of `rsi(series, length)` from indicators.py:
`rs = avg_gain / avg_loss.replace(0, nan)`; `100 - 100/(1+rs)`. -/
def rsi (series : List ℚ) (length : ℕ) : List (Option ℚ) :=
  let avgGain := rsiAvgGain series length
  let avgLoss := replaceZeroNaN (rsiAvgLoss series length)
  let rs := List.zipWith optDiv avgGain avgLoss
  rs.map (Option.map fun r => 100 - 100 / (1 + r))

/-- One OHLC bar (the fields of the data frame used by the indicators). -/
structure Bar where
  high : ℚ
  low : ℚ
  close : ℚ
deriving Repr, DecidableEq

/-- True range of the bars after the first:
`max(high-low, |high-prevClose|, |low-prevClose|)`. -/
def trueRangeAux (prev : ℚ) : List Bar → List ℚ
  | [] => []
  | b :: bs =>
      max (b.high - b.low) (max |b.high - prev| |b.low - prev|) ::
        trueRangeAux b.close bs

/-- The `tr` series of `atr`: on bar 0 `prev_close` is NaN, and the pandas
row-wise `max` skips NaN, so `tr[0] = high[0] - low[0]`. -/
def trueRange : List Bar → List ℚ
  | [] => []
  | b :: bs => (b.high - b.low) :: trueRangeAux b.close bs

/-- Model of `atr(high, low, close, length)` from indicators.py:
`tr.ewm(com=length-1, adjust=False).mean()` (`α = 1/length`). -/
def atr (bars : List Bar) (length : ℕ) : List (Option ℚ) :=
  ewmMean (1 / (length : ℚ)) ((trueRange bars).map some)

/-- NaN-free ewm recursion after the seed value. -/
def ewmQAux (α : ℚ) (w : ℚ) : List ℚ → List ℚ
  | [] => []
  | x :: xs =>
      let w' := (1 - α) * w + α * x
      w' :: ewmQAux α w' xs

/-- NaN-free ewm: seeded by the first value, then the standard
`y = (1-α)·y + α·x` recursion.  On NaN-free input this coincides with
`ewmMean` (`ewmMean_map_some` below). -/
def ewmQ (α : ℚ) : List ℚ → List ℚ
  | [] => []
  | x :: xs => x :: ewmQAux α x xs

/-- The `atr` values consumed by `supertrend` as plain rationals (the true
range series has no NaN, so the ewm output has none either). -/
def atrQ (bars : List Bar) (length : ℕ) : List ℚ :=
  ewmQ (1 / (length : ℚ)) (trueRange bars)

theorem ewmList_map_some (α : ℚ) (w : ℚ) :
    ∀ xs : List ℚ,
      ewmList α { wavg := some w, oldWt := 1 } (xs.map some) =
        (ewmQAux α w xs).map some := by
  intro xs
  induction xs generalizing w with
  | nil => rfl
  | cons x xs ih =>
      have h1 : (1 : ℚ) * (1 - α) + α = 1 := by ring
      have h2 : (1 : ℚ) * (1 - α) * w + α * x = (1 - α) * w + α * x := by ring
      simp only [List.map_cons, ewmList, ewmQAux, ewmStep, h1, h2, div_one]
      rw [ih]

/-- On NaN-free input the pandas ewm loop is the plain seeded recursion. -/
theorem ewmMean_map_some (α : ℚ) (xs : List ℚ) :
    ewmMean α (xs.map some) = (ewmQ α xs).map some := by
  cases xs with
  | nil => rfl
  | cons x xs =>
      simp only [List.map_cons, ewmMean, ewmList, ewmStep, ewmQ]
      rw [ewmList_map_some]

example : ema [1, 2] 3 = [some 1, some (3/2)] := by
  norm_num [ema, ewmMean, ewmList, ewmStep]
example : rsi [1, 2] 14 = [none, none] := by
  norm_num [rsi, rsiAvgGain, rsiAvgLoss, replaceZeroNaN, diff, diffAux,
    ewmMean, ewmList, ewmStep, optDiv]
example : rsi [2, 1] 14 = [none, some 0] := by
  norm_num [rsi, rsiAvgGain, rsiAvgLoss, replaceZeroNaN, diff, diffAux,
    ewmMean, ewmList, ewmStep, optDiv]
example : atr [⟨3, 1, 2⟩] 14 = [some 2] := by
  norm_num [atr, trueRange, ewmMean, ewmList, ewmStep]

/-!
The band-tracking trend indicator (`supertrend` in indicators.py).
Direction convention from the source: `+1` = bearish, `-1` = bullish.
The per-bar loop body: tighten the lower band upward, tighten the upper
band downward, then update the direction against the freshly updated
bands.  The loop state is (active lower, active upper, direction) and the
previous bar's close; each input element is
(raw lower band, raw upper band, close) for the current bar.
-/

/-- Body of the `for i in range(1, n)` loop of `supertrend`:
`lw`/`up`/`dir` are `lower[i-1]`, `upper[i-1]`, `st_dir[i-1]`,
`pc` is `close[i-1]`, and `t = (raw_lower[i], raw_upper[i], close[i])`.
Returns `(lower[i], upper[i], st_dir[i])`. -/
def stStep (lw up : ℚ) (dir : ℤ) (pc : ℚ) (t : ℚ × ℚ × ℚ) : ℚ × ℚ × ℤ :=
  let lw' := if t.1 > lw ∨ pc < lw then t.1 else lw
  let up' := if t.2.1 < up ∨ pc > up then t.2.1 else up
  let dir' : ℤ :=
    if dir = 1 then (if t.2.2 > up' then -1 else 1)
    else (if t.2.2 < lw' then 1 else -1)
  (lw', up', dir')

/-- The `supertrend` loop over the bars after bar 0. -/
def stAux (lw up : ℚ) (dir : ℤ) (pc : ℚ) : List (ℚ × ℚ × ℚ) → List (ℚ × ℚ × ℤ)
  | [] => []
  | t :: rest =>
      let s := stStep lw up dir pc t
      s :: stAux s.1 s.2.1 s.2.2 t.2.2 rest

/-- The midpoint series `hl2 = (high + low) / 2`. -/
def hl2List (bars : List Bar) : List ℚ :=
  bars.map (fun b => (b.high + b.low) / 2)

/-- The raw band `raw_upper = hl2 + factor * atr_vals`. -/
def rawUpperList (bars : List Bar) (factor : ℚ) (atrLen : ℕ) : List ℚ :=
  List.zipWith (fun h a => h + factor * a) (hl2List bars) (atrQ bars atrLen)

/-- The raw band `raw_lower = hl2 - factor * atr_vals`. -/
def rawLowerList (bars : List Bar) (factor : ℚ) (atrLen : ℕ) : List ℚ :=
  List.zipWith (fun h a => h - factor * a) (hl2List bars) (atrQ bars atrLen)

/-- Per-bar input to the supertrend loop:
`(raw_lower[i], raw_upper[i], close[i])`. -/
def stInput (bars : List Bar) (factor : ℚ) (atrLen : ℕ) : List (ℚ × ℚ × ℚ) :=
  (rawLowerList bars factor atrLen).zip
    ((rawUpperList bars factor atrLen).zip (bars.map Bar.close))

/-- The full state sequence `(lower[i], upper[i], st_dir[i])` of
`supertrend(high, low, close, factor, atr_len)`; bar 0 is seeded with the
raw bands and direction `+1` (bearish). -/
def supertrendFull (bars : List Bar) (factor : ℚ) (atrLen : ℕ) :
    List (ℚ × ℚ × ℤ) :=
  match stInput bars factor atrLen with
  | [] => []
  | t :: rest => (t.1, t.2.1, (1 : ℤ)) :: stAux t.1 t.2.1 1 t.2.2 rest

/-- The direction series returned by `supertrend`. -/
def supertrend (bars : List Bar) (factor : ℚ) (atrLen : ℕ) : List ℤ :=
  (supertrendFull bars factor atrLen).map (fun s => s.2.2)

theorem trueRangeAux_length (pc : ℚ) :
    ∀ bars : List Bar, (trueRangeAux pc bars).length = bars.length := by
  intro bars
  induction bars generalizing pc with
  | nil => rfl
  | cons b bs ih => simp [trueRangeAux, ih]

theorem trueRange_length (bars : List Bar) :
    (trueRange bars).length = bars.length := by
  cases bars with
  | nil => rfl
  | cons b bs => simp [trueRange, trueRangeAux_length]

theorem ewmQAux_length (α w : ℚ) :
    ∀ xs : List ℚ, (ewmQAux α w xs).length = xs.length := by
  intro xs
  induction xs generalizing w with
  | nil => rfl
  | cons x xs ih => simp [ewmQAux, ih]

theorem ewmQ_length (α : ℚ) (xs : List ℚ) :
    (ewmQ α xs).length = xs.length := by
  cases xs with
  | nil => rfl
  | cons x xs => simp [ewmQ, ewmQAux_length]

theorem atrQ_length (bars : List Bar) (n : ℕ) :
    (atrQ bars n).length = bars.length := by
  simp [atrQ, ewmQ_length, trueRange_length]

theorem rawUpperList_length (bars : List Bar) (f : ℚ) (n : ℕ) :
    (rawUpperList bars f n).length = bars.length := by
  simp [rawUpperList, hl2List, atrQ_length]

theorem rawLowerList_length (bars : List Bar) (f : ℚ) (n : ℕ) :
    (rawLowerList bars f n).length = bars.length := by
  simp [rawLowerList, hl2List, atrQ_length]

theorem stInput_length (bars : List Bar) (f : ℚ) (n : ℕ) :
    (stInput bars f n).length = bars.length := by
  simp [stInput, rawUpperList_length, rawLowerList_length]

theorem stAux_length (lw up : ℚ) (dir : ℤ) (pc : ℚ) :
    ∀ ins : List (ℚ × ℚ × ℚ),
      (stAux lw up dir pc ins).length = ins.length := by
  intro ins
  induction ins generalizing lw up dir pc with
  | nil => rfl
  | cons t rest ih => simp [stAux, ih]

theorem supertrendFull_length (bars : List Bar) (f : ℚ) (n : ℕ) :
    (supertrendFull bars f n).length = bars.length := by
  rw [← stInput_length bars f n]
  unfold supertrendFull
  cases h : stInput bars f n with
  | nil => simp
  | cons t rest => simp [stAux_length]

theorem supertrend_length (bars : List Bar) (f : ℚ) (n : ℕ) :
    (supertrend bars f n).length = bars.length := by
  simp [supertrend, supertrendFull_length]

theorem zip_getElem?_some {α β : Type} :
    ∀ (as : List α) (bs : List β) (i : ℕ) (p : α × β),
      (as.zip bs)[i]? = some p → as[i]? = some p.1 ∧ bs[i]? = some p.2 := by
  intro as
  induction as with
  | nil => intro bs i p h; simp [List.zip] at h
  | cons a as ih =>
      intro bs i p h
      cases bs with
      | nil => simp [List.zip] at h
      | cons b bs =>
          cases i with
          | zero =>
              simp only [List.zip_cons_cons, List.getElem?_cons_zero,
                Option.some.injEq] at h
              subst h
              exact ⟨by simp, by simp⟩
          | succ i =>
              simp only [List.zip_cons_cons, List.getElem?_cons_succ] at h ⊢
              exact ih bs i p h

theorem map_getElem?_some {α β : Type} (f : α → β) :
    ∀ (as : List α) (i : ℕ) (y : β),
      (as.map f)[i]? = some y → ∃ x, as[i]? = some x ∧ y = f x := by
  intro as
  induction as with
  | nil => intro i y h; simp at h
  | cons a as ih =>
      intro i y h
      cases i with
      | zero =>
          simp only [List.map_cons, List.getElem?_cons_zero,
            Option.some.injEq] at h
          exact ⟨a, by simp, h.symm⟩
      | succ i =>
          simp only [List.map_cons, List.getElem?_cons_succ] at h ⊢
          exact ih i y h

theorem stAux_cons (lw up : ℚ) (dir : ℤ) (pc : ℚ) (t : ℚ × ℚ × ℚ)
    (rest : List (ℚ × ℚ × ℚ)) :
    stAux lw up dir pc (t :: rest) =
      stStep lw up dir pc t ::
        stAux (stStep lw up dir pc t).1 (stStep lw up dir pc t).2.1
          (stStep lw up dir pc t).2.2 t.2.2 rest := rfl

/-- Consecutive elements of the supertrend loop output are related by the
loop body, with the previous bar's close taken from the previous input. -/
theorem stAux_adjacent :
    ∀ (ins : List (ℚ × ℚ × ℚ)) (lw up : ℚ) (dir : ℤ) (pc : ℚ) (i : ℕ)
      (o1 o2 : ℚ × ℚ × ℤ) (t1 t2 : ℚ × ℚ × ℚ),
      ins[i]? = some t1 → ins[i + 1]? = some t2 →
      (stAux lw up dir pc ins)[i]? = some o1 →
      (stAux lw up dir pc ins)[i + 1]? = some o2 →
      o2 = stStep o1.1 o1.2.1 o1.2.2 t1.2.2 t2 := by
  intro ins
  induction ins with
  | nil => intro lw up dir pc i o1 o2 t1 t2 h1; simp at h1
  | cons t rest ih =>
      intro lw up dir pc i o1 o2 t1 t2 h1 h2 h3 h4
      cases i with
      | zero =>
          simp only [stAux_cons, List.getElem?_cons_zero,
            List.getElem?_cons_succ, Option.some.injEq] at h1 h2 h3 h4
          cases rest with
          | nil => simp at h2
          | cons u rest' =>
              simp only [stAux_cons, List.getElem?_cons_zero,
                Option.some.injEq] at h2 h4
              subst h1; subst h2; subst h3; subst h4
              rfl
      | succ i =>
          simp only [stAux_cons, List.getElem?_cons_succ] at h1 h2 h3 h4
          exact ih _ _ _ _ i o1 o2 t1 t2 h1 h2 h3 h4

/-- Adjacency for the whole `supertrend` state sequence, including the
transition out of the seeded bar 0. -/
theorem supertrendFull_adjacent (bars : List Bar) (f : ℚ) (n : ℕ) :
    ∀ (i : ℕ) (o1 o2 : ℚ × ℚ × ℤ) (t1 t2 : ℚ × ℚ × ℚ),
      (stInput bars f n)[i]? = some t1 →
      (stInput bars f n)[i + 1]? = some t2 →
      (supertrendFull bars f n)[i]? = some o1 →
      (supertrendFull bars f n)[i + 1]? = some o2 →
      o2 = stStep o1.1 o1.2.1 o1.2.2 t1.2.2 t2 := by
  intro i o1 o2 t1 t2 h1 h2 h3 h4
  unfold supertrendFull at h3 h4
  cases hst : stInput bars f n with
  | nil => rw [hst] at h1; simp at h1
  | cons t rest =>
      rw [hst] at h1 h2 h3 h4
      cases i with
      | zero =>
          simp only [List.getElem?_cons_zero, List.getElem?_cons_succ,
            Option.some.injEq] at h1 h2 h3 h4
          cases rest with
          | nil => simp at h2
          | cons u rest' =>
              simp only [stAux_cons, List.getElem?_cons_zero,
                Option.some.injEq] at h2 h4
              subst h1; subst h2; subst h3; subst h4
              rfl
      | succ i =>
          simp only [List.getElem?_cons_succ] at h1 h2 h3 h4
          exact stAux_adjacent rest _ _ _ _ i o1 o2 t1 t2 h1 h2 h3 h4

/-- The third component of a supertrend loop input is the bar's close. -/
theorem stInput_close (bars : List Bar) (f : ℚ) (n : ℕ) (i : ℕ)
    (t : ℚ × ℚ × ℚ) (b : Bar)
    (ht : (stInput bars f n)[i]? = some t) (hb : bars[i]? = some b) :
    t.2.2 = b.close := by
  unfold stInput at ht
  obtain ⟨-, h2⟩ := zip_getElem?_some _ _ _ _ ht
  obtain ⟨-, h3⟩ := zip_getElem?_some _ _ _ _ h2
  obtain ⟨x, hx, hfx⟩ := map_getElem?_some Bar.close _ _ _ h3
  rw [hb] at hx
  cases hx
  exact hfx

/-- Any position that exists in the supertrend output also exists in the
loop input list. -/
theorem stInput_isSome_of_full (bars : List Bar) (f : ℚ) (n : ℕ) (i : ℕ)
    (o : ℚ × ℚ × ℤ) (h : (supertrendFull bars f n)[i]? = some o) :
    ∃ t, (stInput bars f n)[i]? = some t := by
  have hlen : i < (supertrendFull bars f n).length := by
    by_contra hc
    rw [List.getElem?_eq_none (Nat.le_of_not_lt hc)] at h
    exact Option.noConfusion h
  rw [supertrendFull_length, ← stInput_length bars f n] at hlen
  exact ⟨_, List.getElem?_eq_getElem hlen⟩

/-- Every direction value produced by the supertrend loop is `-1` or `+1`. -/
theorem stAux_dir :
    ∀ (ins : List (ℚ × ℚ × ℚ)) (lw up : ℚ) (dir : ℤ) (pc : ℚ)
      (o : ℚ × ℚ × ℤ),
      o ∈ stAux lw up dir pc ins → o.2.2 = -1 ∨ o.2.2 = 1 := by
  intro ins
  induction ins with
  | nil => intro lw up dir pc o h; simp [stAux] at h
  | cons t rest ih =>
      intro lw up dir pc o h
      rw [stAux_cons] at h
      rcases List.mem_cons.mp h with h | h
      · subst h
        simp only [stStep]
        split_ifs <;> simp
      · exact ih _ _ _ _ o h

/-- Claim C1: the band-tracking indicator seeds bar 0 with the raw bands
and the bearish direction (source convention `+1` = bearish, `-1` =
bullish), and for every later bar the direction flips to bullish exactly
when the previous direction was bearish and the close exceeds the current
active upper band, flips to bearish exactly when the previous direction
was bullish and the close falls below the current active lower band, and
otherwise repeats the previous bar's direction. -/
theorem supertrend_direction_recursion (bars : List Bar) (f : ℚ) (n : ℕ) :
    (∀ t : ℚ × ℚ × ℚ, (stInput bars f n)[0]? = some t →
        (supertrendFull bars f n)[0]? = some (t.1, t.2.1, (1 : ℤ))) ∧
    (∀ (i : ℕ) (o1 o2 : ℚ × ℚ × ℤ) (b : Bar),
        (supertrendFull bars f n)[i]? = some o1 →
        (supertrendFull bars f n)[i + 1]? = some o2 →
        bars[i + 1]? = some b →
        (o1.2.2 = 1 → o2.2.2 = if b.close > o2.2.1 then -1 else 1) ∧
        (o1.2.2 = -1 → o2.2.2 = if b.close < o2.1 then 1 else -1)) := by
  constructor
  · intro t ht
    unfold supertrendFull
    cases hst : stInput bars f n with
    | nil => rw [hst] at ht; simp at ht
    | cons u rest =>
        rw [hst] at ht
        simp only [List.getElem?_cons_zero, Option.some.injEq] at ht
        subst ht
        simp
  · intro i o1 o2 b h1 h2 hb
    obtain ⟨t1, ht1⟩ := stInput_isSome_of_full bars f n i o1 h1
    obtain ⟨t2, ht2⟩ := stInput_isSome_of_full bars f n (i + 1) o2 h2
    have hadj := supertrendFull_adjacent bars f n i o1 o2 t1 t2 ht1 ht2 h1 h2
    have hc : t2.2.2 = b.close := stInput_close bars f n (i + 1) t2 b ht2 hb
    subst hadj
    constructor
    · intro hdir
      rw [← hc]
      simp [stStep, hdir]
    · intro hdir
      rw [← hc]
      simp [stStep, hdir]

/-- Witness for C1 on a concrete two-bar input (factor 1, ATR length 1):
raw bands at bar 0 are `(-1, 3)`, and at bar 1 the previously bearish
direction flips to bullish because the close `5` exceeds the active upper
band `3`. -/
theorem supertrend_direction_recursion_witness :
    (supertrendFull [⟨2, 0, 1⟩, ⟨4, 2, 5⟩] 1 1)[0]? =
        some ((-1 : ℚ), (3 : ℚ), (1 : ℤ)) ∧
    (-1 : ℤ) = if (5 : ℚ) > 3 then -1 else 1 := by
  have h := supertrend_direction_recursion [⟨2, 0, 1⟩, ⟨4, 2, 5⟩] 1 1
  constructor
  · exact h.1 ((-1 : ℚ), (3 : ℚ), (1 : ℚ))
      (by norm_num [stInput, rawLowerList, rawUpperList, hl2List, atrQ,
        ewmQ, ewmQAux, trueRange, trueRangeAux])
  · exact (h.2 0 ((-1 : ℚ), (3 : ℚ), (1 : ℤ)) ((0 : ℚ), (3 : ℚ), (-1 : ℤ))
      ⟨4, 2, 5⟩
      (by norm_num [supertrendFull, stInput, rawLowerList, rawUpperList,
        hl2List, atrQ, ewmQ, ewmQAux, trueRange, trueRangeAux, stAux_cons,
        stStep])
      (by norm_num [supertrendFull, stInput, rawLowerList, rawUpperList,
        hl2List, atrQ, ewmQ, ewmQAux, trueRange, trueRangeAux, stAux_cons,
        stStep])
      (by norm_num)).1 rfl

/-- Claim C2: stickiness of the active bands.  If the previous close did
not fall below the previous active lower band, the active lower band
never decreases; symmetrically, if the previous close did not rise above
the previous active upper band, the active upper band never increases. -/
theorem supertrend_band_stickiness (bars : List Bar) (f : ℚ) (n : ℕ) :
    ∀ (i : ℕ) (o1 o2 : ℚ × ℚ × ℤ) (b : Bar),
      (supertrendFull bars f n)[i]? = some o1 →
      (supertrendFull bars f n)[i + 1]? = some o2 →
      bars[i]? = some b →
      (b.close ≥ o1.1 → o2.1 ≥ o1.1) ∧
      (b.close ≤ o1.2.1 → o2.2.1 ≤ o1.2.1) := by
  intro i o1 o2 b h1 h2 hb
  obtain ⟨t1, ht1⟩ := stInput_isSome_of_full bars f n i o1 h1
  obtain ⟨t2, ht2⟩ := stInput_isSome_of_full bars f n (i + 1) o2 h2
  have hadj := supertrendFull_adjacent bars f n i o1 o2 t1 t2 ht1 ht2 h1 h2
  have hc : t1.2.2 = b.close := stInput_close bars f n i t1 b ht1 hb
  subst hadj
  constructor
  · intro hcl
    simp only [stStep]
    split_ifs with h
    · rcases h with h | h
      · exact le_of_lt h
      · rw [hc] at h
        exact absurd hcl (not_le.mpr h)
    · exact le_refl _
  · intro hcl
    simp only [stStep]
    split_ifs with h
    · rcases h with h | h
      · exact le_of_lt h
      · rw [hc] at h
        exact absurd hcl (not_le.mpr h)
    · exact le_refl _

/-- Witness for C2 on the concrete two-bar input: the previous close `1`
stays above the active lower band `-1`, and the next active lower band
`0` indeed does not decrease. -/
theorem supertrend_band_stickiness_witness :
    ((1 : ℚ) ≥ -1) ∧ ((0 : ℚ) ≥ -1) := by
  constructor
  · norm_num
  · exact (supertrend_band_stickiness [⟨2, 0, 1⟩, ⟨4, 2, 5⟩] 1 1 0
      ((-1 : ℚ), (3 : ℚ), (1 : ℤ)) ((0 : ℚ), (3 : ℚ), (-1 : ℤ)) ⟨2, 0, 1⟩
      (by norm_num [supertrendFull, stInput, rawLowerList, rawUpperList,
        hl2List, atrQ, ewmQ, ewmQAux, trueRange, trueRangeAux, stAux_cons,
        stStep])
      (by norm_num [supertrendFull, stInput, rawLowerList, rawUpperList,
        hl2List, atrQ, ewmQ, ewmQAux, trueRange, trueRangeAux, stAux_cons,
        stStep])
      (by norm_num)).1 (by norm_num)

/-- Claim C10: on every non-empty bar sequence the band-tracking
indicator is total — it returns exactly one direction per bar and each
direction is `-1` (bullish) or `+1` (bearish), never zero or missing. -/
theorem supertrend_total (bars : List Bar) (f : ℚ) (n : ℕ)
    (hne : bars ≠ []) :
    supertrend bars f n ≠ [] ∧
    (supertrend bars f n).length = bars.length ∧
    ∀ d ∈ supertrend bars f n, d = -1 ∨ d = 1 := by
  refine ⟨?_, supertrend_length bars f n, ?_⟩
  · intro hc
    apply hne
    have hl := supertrend_length bars f n
    rw [hc] at hl
    exact List.length_eq_zero.mp hl.symm
  · intro d hd
    simp only [supertrend, List.mem_map] at hd
    obtain ⟨o, ho, rfl⟩ := hd
    unfold supertrendFull at ho
    cases hst : stInput bars f n with
    | nil => rw [hst] at ho; simp at ho
    | cons t rest =>
        rw [hst] at ho
        rcases List.mem_cons.mp ho with h | h
        · subst h
          right
          rfl
        · exact stAux_dir rest _ _ _ _ o h

/-- Witness for C10 on a concrete single-bar input. -/
theorem supertrend_total_witness :
    supertrend [⟨2, 0, 1⟩] 1 1 ≠ [] ∧
    (supertrend [⟨2, 0, 1⟩] 1 1).length = ([⟨2, 0, 1⟩] : List Bar).length ∧
    ∀ d ∈ supertrend [⟨2, 0, 1⟩] 1 1, d = -1 ∨ d = 1 :=
  supertrend_total [⟨2, 0, 1⟩] 1 1 (by simp)

/-!
Warm-up and zero-average-loss behaviour of the series math.
-/

theorem ewmList_length (α : ℚ) :
    ∀ (xs : List (Option ℚ)) (s : EwmState),
      (ewmList α s xs).length = xs.length := by
  intro xs
  induction xs with
  | nil => intro s; rfl
  | cons x xs ih => intro s; simp [ewmList, ih]

theorem diffAux_length (p : ℚ) :
    ∀ xs : List ℚ, (diffAux p xs).length = xs.length := by
  intro xs
  induction xs generalizing p with
  | nil => rfl
  | cons x xs ih => simp [diffAux, ih]

theorem diff_length (xs : List ℚ) : (diff xs).length = xs.length := by
  cases xs with
  | nil => rfl
  | cons x xs => simp [diff, diffAux_length]

theorem ema_length (s : List ℚ) (n : ℕ) : (ema s n).length = s.length := by
  simp [ema, ewmMean, ewmList_length]

theorem rsiAvgGain_length (s : List ℚ) (n : ℕ) :
    (rsiAvgGain s n).length = s.length := by
  simp [rsiAvgGain, ewmMean, ewmList_length, diff_length]

theorem rsiAvgLoss_length (s : List ℚ) (n : ℕ) :
    (rsiAvgLoss s n).length = s.length := by
  simp [rsiAvgLoss, ewmMean, ewmList_length, diff_length]

theorem rsi_length (s : List ℚ) (n : ℕ) : (rsi s n).length = s.length := by
  have h1 := rsiAvgGain_length s n
  have h2 := rsiAvgLoss_length s n
  simp [rsi, replaceZeroNaN, rsiAvgGain, rsiAvgLoss] at h1 h2 ⊢
  omega

theorem atr_length (bars : List Bar) (n : ℕ) :
    (atr bars n).length = bars.length := by
  simp [atr, ewmMean, ewmList_length, trueRange_length]

/-- An ewm over a NaN-free series is NaN-free. -/
theorem ewmList_isSome (α : ℚ) :
    ∀ (xs : List (Option ℚ)) (s : EwmState),
      (∀ x ∈ xs, x.isSome) → ∀ y ∈ ewmList α s xs, y.isSome := by
  intro xs
  induction xs with
  | nil => intro s _ y hy; simp [ewmList] at hy
  | cons x xs ih =>
      intro s hx y hy
      obtain ⟨v, hv⟩ := Option.isSome_iff_exists.mp
        (hx x (List.mem_cons_self x xs))
      subst hv
      rw [show ewmList α s (some v :: xs) =
          (ewmStep α s (some v)).wavg ::
            ewmList α (ewmStep α s (some v)) xs from rfl] at hy
      rcases List.mem_cons.mp hy with h | h
      · subst h
        cases hw : s.wavg <;> simp [ewmStep, hw]
      · exact ih (ewmStep α s (some v)) (fun z hz => hx z (by simp [hz])) y h

/-- Pushing an index through `zipWith` when both sides are present. -/
theorem zipWith_getElem?_some {α β γ : Type} (f : α → β → γ) :
    ∀ (as : List α) (bs : List β) (i : ℕ) (x : α) (y : β),
      as[i]? = some x → bs[i]? = some y →
      (List.zipWith f as bs)[i]? = some (f x y) := by
  intro as
  induction as with
  | nil => intro bs i x y hx; simp at hx
  | cons a as ih =>
      intro bs i x y hx hy
      cases bs with
      | nil => simp at hy
      | cons b bs =>
          cases i with
          | zero =>
              simp only [List.getElem?_cons_zero, Option.some.injEq] at hx hy
              subst hx; subst hy
              simp
          | succ i =>
              simp only [List.getElem?_cons_succ] at hx hy ⊢
              simp only [List.zipWith_cons_cons, List.getElem?_cons_succ]
              exact ih bs i x y hx hy

/-- Claim C5 (amended): when the Wilder-smoothed average loss at a bar is
exactly zero, `rsi` replaces the zero by NaN before dividing, so the
output at that bar is NaN/undefined (`none`) — not 100; no division by a
zero denominator is ever performed. -/
theorem rsi_zero_avg_loss_nan (s : List ℚ) (n : ℕ) (i : ℕ)
    (h : (rsiAvgLoss s n)[i]? = some (some 0)) :
    (rsi s n)[i]? = some none := by
  have hi : i < (rsiAvgLoss s n).length := by
    by_contra hc
    rw [List.getElem?_eq_none (Nat.le_of_not_lt hc)] at h
    exact Option.noConfusion h
  rw [rsiAvgLoss_length, ← rsiAvgGain_length s n] at hi
  obtain ⟨g, hgi⟩ : ∃ g, (rsiAvgGain s n)[i]? = some g :=
    ⟨_, List.getElem?_eq_getElem hi⟩
  have hl : (replaceZeroNaN (rsiAvgLoss s n))[i]? = some none := by
    unfold replaceZeroNaN
    rw [List.getElem?_map, h]
    simp
  show ((List.zipWith optDiv (rsiAvgGain s n)
      (replaceZeroNaN (rsiAvgLoss s n))).map
        (Option.map fun r => 100 - 100 / (1 + r)))[i]? = some none
  rw [List.getElem?_map,
    zipWith_getElem?_some optDiv _ _ i g none hgi hl]
  cases g <;> simp [optDiv]

/-- Witness for C5 (amended) on the rising series `[1, 2]`: the average
loss at bar 1 is exactly zero and the emitted value there is NaN. -/
theorem rsi_zero_avg_loss_nan_witness :
    (rsiAvgLoss [1, 2] 14)[1]? = some (some 0) ∧
    (rsi [1, 2] 14)[1]? = some none := by
  constructor
  · norm_num [rsiAvgLoss, diff, diffAux, ewmMean, ewmList, ewmStep]
  · exact rsi_zero_avg_loss_nan [1, 2] 14 1
      (by norm_num [rsiAvgLoss, diff, diffAux, ewmMean, ewmList, ewmStep])

/-- Counterexample to C5 as stated: on the monotonically rising series
`[1, 2]` the smoothed average loss at bar 1 is exactly zero, yet `rsi`
emits NaN (`none`) rather than the claimed value 100 at that bar. -/
theorem rsi_zero_avg_loss_not_100 :
    (rsiAvgLoss [1, 2] 14)[1]? = some (some 0) ∧
    (rsi [1, 2] 14)[1]? ≠ some (some 100) := by
  constructor
  · norm_num [rsiAvgLoss, diff, diffAux, ewmMean, ewmList, ewmStep]
  · norm_num [rsi, rsiAvgGain, rsiAvgLoss, replaceZeroNaN, diff, diffAux,
      ewmMean, ewmList, ewmStep, optDiv]
    exact fun h => Option.noConfusion h

/-- Claim C6 (amended): `ema`, `rsi` and `atr` all preserve the input
length, but the undefined warm-up prefix is not `length − 1`: the ewm
with `adjust=False` is seeded by the first observation, so `ema` is
defined at every bar, `atr` is defined at every bar (its bar-0 true
range is `high − low` because the row-wise max skips the NaN terms),
and `rsi` is undefined at bar 0 (where `diff` is NaN). -/
theorem series_warmup (s : List ℚ) (bars : List Bar) (n m : ℕ)
    (hs : s ≠ []) :
    (ema s n).length = s.length ∧
    (rsi s n).length = s.length ∧
    (atr bars m).length = bars.length ∧
    (∀ x ∈ ema s n, x.isSome) ∧
    (∀ x ∈ atr bars m, x.isSome) ∧
    (rsi s n)[0]? = some none := by
  refine ⟨ema_length s n, rsi_length s n, atr_length bars m, ?_, ?_, ?_⟩
  · intro x hx
    simp only [ema, ewmMean] at hx
    refine ewmList_isSome _ _ _ ?_ x hx
    intro z hz
    simp only [List.mem_map] at hz
    obtain ⟨a, -, rfl⟩ := hz
    rfl
  · intro x hx
    simp only [atr, ewmMean] at hx
    refine ewmList_isSome _ _ _ ?_ x hx
    intro z hz
    simp only [List.mem_map] at hz
    obtain ⟨a, -, rfl⟩ := hz
    rfl
  · obtain ⟨a, l, rfl⟩ := List.exists_cons_of_ne_nil hs
    have hg : (rsiAvgGain (a :: l) n)[0]? = some none := by
      simp [rsiAvgGain, diff, ewmMean, ewmList, ewmStep]
    have hl : (replaceZeroNaN (rsiAvgLoss (a :: l) n))[0]? = some none := by
      simp [rsiAvgLoss, replaceZeroNaN, diff, ewmMean, ewmList, ewmStep]
    show ((List.zipWith optDiv (rsiAvgGain (a :: l) n)
        (replaceZeroNaN (rsiAvgLoss (a :: l) n))).map
          (Option.map fun r => 100 - 100 / (1 + r)))[0]? = some none
    rw [List.getElem?_map,
      zipWith_getElem?_some optDiv _ _ 0 none none hg hl]
    rfl

/-- Witness for C6 (amended) at concrete inputs. -/
theorem series_warmup_witness :
    (ema [1, 2, 3] 3).length = ([1, 2, 3] : List ℚ).length ∧
    (rsi [1, 2, 3] 3).length = ([1, 2, 3] : List ℚ).length ∧
    (atr [⟨2, 0, 1⟩] 14).length = ([⟨2, 0, 1⟩] : List Bar).length ∧
    (∀ x ∈ ema [1, 2, 3] 3, x.isSome) ∧
    (∀ x ∈ atr [⟨2, 0, 1⟩] 14, x.isSome) ∧
    (rsi [1, 2, 3] 3)[0]? = some none :=
  series_warmup [1, 2, 3] [⟨2, 0, 1⟩] 3 14 (by simp)

/-- Counterexample to C6 as stated: for `ema` with `length = 3` the
claim predicts undefined values at bars 0 and 1 (a warm-up of size
`length − 1 = 2`), but `ema [1, 2, 3] 3` is already defined at bar 0
with value 1. -/
theorem ema_warmup_counterexample :
    ¬ (∀ i, i < 3 - 1 → (ema [1, 2, 3] 3)[i]? = some none) := by
  intro h
  have h0 := h 0 (by norm_num)
  norm_num [ema, ewmMean, ewmList, ewmStep] at h0
  exact Option.noConfusion h0

/-!
The trade lifecycle manager (backend/trade_manager.py).

State is modelled explicitly: `active` and `history` are the two
per-symbol dictionaries of `TradeManager`.  Wall-clock time enters the
Python code only through `datetime.now`; here "now" is a rational
minute timestamp passed as a parameter, and `_check_eod`'s
timezone-converted current times (`now.astimezone(tz)`) are passed as
already-converted `LocalTime` values for the two markets.
Python `round(x, n)` is banker's rounding, modelled exactly by
`pyRound`; Python string truthiness ('' is falsy) never matters because
every reason string produced is non-empty.
-/

/-- Python `round` to an integer: round half to even. -/
def rndHalfEven (q : ℚ) : ℤ :=
  if q - ⌊q⌋ < 1/2 then ⌊q⌋
  else if 1/2 < q - ⌊q⌋ then ⌊q⌋ + 1
  else if ⌊q⌋ % 2 = 0 then ⌊q⌋ else ⌊q⌋ + 1

/-- Python `round(x, n)`. -/
def pyRound (q : ℚ) (n : ℕ) : ℚ := (rndHalfEven (q * 10 ^ n) : ℚ) / 10 ^ n

/-- A timezone-local wall-clock instant, as the trade manager reads it:
`weekday` uses the Python convention 0 = Monday … 6 = Sunday. -/
structure LocalTime where
  weekday : ℕ
  hour : ℕ
  minute : ℕ
  second : ℕ
  micro : ℕ
deriving Repr, DecidableEq

/-- Model of `local >= local.replace(hour=h, minute=m, second=0, microsecond=0)`:
the cutoff shares the date and has zero seconds/microseconds, so the
lexicographic datetime comparison reduces to this test. -/
def localGeCutoff (t : LocalTime) (h m : ℕ) : Bool :=
  decide (h < t.hour) || (decide (t.hour = h) && decide (m ≤ t.minute))

/-- Whether `bs` is an initial run of `as`, character by character. -/
def leadAgrees : List Char → List Char → Bool
  | _, [] => true
  | [], _ :: _ => false
  | a :: as, b :: bs => (a = b) && leadAgrees as bs

/-- Python `str.endswith`, computed on the character lists. -/
def strEndsWith (s suf : String) : Bool :=
  leadAgrees s.data.reverse suf.data.reverse

/-- Model of `_is_nse_symbol` from trade_manager.py. -/
def is_nse_symbol (sym : String) : Bool :=
  strEndsWith sym ".NS" || strEndsWith sym ".BO" ||
    sym == "^NSEI" || sym == "^NSEBANK" || sym == "^BSESN"

/-- Model of `_check_eod`: NSE-style symbols use the Asia/Kolkata local time and
the 15:20 cutoff, all others the America/New_York local time and 15:55;
the exit only fires on weekdays (`weekday < 5`). -/
def check_eod (symbol : String) (ist est : LocalTime) : Option String :=
  let t := if is_nse_symbol symbol then ist else est
  let hm : ℕ × ℕ := if is_nse_symbol symbol then (15, 20) else (15, 55)
  if decide (t.weekday < 5) && localGeCutoff t hm.1 hm.2 then
    some "EOD Exit"
  else none

/-- Model of `_INTERVAL_MINUTES.get(interval, 5)`. -/
def interval_minutes (interval : String) : ℚ :=
  if interval == "1m" then 1 else if interval == "2m" then 2
  else if interval == "5m" then 5 else if interval == "15m" then 15
  else if interval == "30m" then 30 else if interval == "60m" then 60
  else if interval == "1h" then 60 else if interval == "1d" then 390
  else if interval == "1wk" then 1950 else 5

/-- Model of `_compute_confidence(rsi, signal_type)`. -/
def compute_confidence (r : ℚ) (signal_type : String) : ℚ :=
  let dist := if signal_type == "BUY" then max 0 (r - 50) else max 0 (50 - r)
  pyRound (min 95 (50 + dist * (9/5))) 1

/-- A strategy signal dict; optional numeric entries are `Option`. -/
structure Signal where
  type : String
  price : ℚ
  sl : ℚ
  tp : ℚ
  rsi : Option ℚ
  atr : Option ℚ
  target_bars : Option ℚ
  bars : Option ℚ
deriving Repr, DecidableEq

/-- Python `a or b` for float-or-missing values: a missing or zero
(falsy) `a` falls through to `b`. -/
def orFloat (a : Option ℚ) (b : ℚ) : ℚ :=
  match a with
  | some x => if x = 0 then b else x
  | none => b

/-- Model of `float(signal.get('target_bars') or signal.get('bars') or 5)`. -/
def signalBars (sig : Signal) : ℚ :=
  orFloat sig.target_bars (orFloat sig.bars 5)

/-- An active trade record (the dict built by `open_trade`;
`entry_time` is the minute timestamp standing for `entry_time_dt`). -/
structure Trade where
  symbol : String
  timeframe : String
  strategy : String
  side : String
  entry_price : ℚ
  target_price : ℚ
  stop_loss : ℚ
  confidence : ℚ
  entry_time : ℚ
  expected_time_minutes : ℚ
  expected_bars : ℚ
  rsi : ℚ
  atr : ℚ
  status : String
deriving Repr, DecidableEq

/-- The closed-trade exit event dict built by `_close_trade`
(the ISO time strings are represented by `duration_minutes`). -/
structure ExitEvent where
  symbol : String
  side : String
  strategy : String
  timeframe : String
  entry_price : ℚ
  exit_price : ℚ
  target_price : ℚ
  stop_loss : ℚ
  exit_reason : String
  pnl : ℚ
  pnl_pct : ℚ
  duration_minutes : ℚ
  confidence : ℚ
deriving Repr, DecidableEq

/-- The `TradeManager` state: the `_active` and `_history` dicts. -/
structure TMState where
  active : String → Option Trade
  history : String → List ExitEvent

/-- Model of `TradeManager.open_trade`: no-op returning `None` when the symbol
already has an active trade; otherwise builds and stores the trade. -/
def open_trade (st : TMState) (now : ℚ) (sig : Signal)
    (symbol strategy interval : String) : Option Trade × TMState :=
  match st.active symbol with
  | some _ => (none, st)
  | none =>
      let iv_min := interval_minutes interval
      let bars := signalBars sig
      let exp_min := bars * iv_min
      let conf := compute_confidence (sig.rsi.getD 50) sig.type
      let trade : Trade :=
        { symbol := symbol
          timeframe := interval
          strategy := strategy
          side := sig.type
          entry_price := pyRound sig.price 4
          target_price := pyRound sig.tp 4
          stop_loss := pyRound sig.sl 4
          confidence := conf
          entry_time := now
          expected_time_minutes := pyRound exp_min 1
          expected_bars := pyRound bars 1
          rsi := pyRound (sig.rsi.getD 50) 2
          atr := pyRound (sig.atr.getD 0) 4
          status := "ACTIVE" }
      (some trade,
        { st with
          active := fun s => if s = symbol then some trade else st.active s })

/-- The history bound of `_close_trade`: after `insert(0, event)`,
`if len > 20: pop()` drops the last (oldest) element. -/
def capHistory (l : List ExitEvent) : List ExitEvent :=
  if l.length > 20 then l.dropLast else l

/-- Model of `TradeManager._close_trade`: computes P&L, prepends the event to the
symbol's history (dropping the oldest element beyond 20) and clears the
active slot.  The Python `return {}` for a missing trade is modelled as
`none` with an unchanged state. -/
def close_trade (st : TMState) (now : ℚ) (symbol : String)
    (exit_price : ℚ) (reason : String) : Option ExitEvent × TMState :=
  match st.active symbol with
  | none => (none, st)
  | some trade =>
      let entry := trade.entry_price
      let elapsed := now - trade.entry_time
      let pnl := if trade.side = "BUY" then pyRound (exit_price - entry) 4
                 else pyRound (entry - exit_price) 4
      let pnl_pct := if entry ≠ 0 then pyRound (pnl / entry * 100) 2 else 0
      let event : ExitEvent :=
        { symbol := symbol
          side := trade.side
          strategy := trade.strategy
          timeframe := trade.timeframe
          entry_price := entry
          exit_price := pyRound exit_price 4
          target_price := trade.target_price
          stop_loss := trade.stop_loss
          exit_reason := reason
          pnl := pnl
          pnl_pct := pnl_pct
          duration_minutes := pyRound elapsed 1
          confidence := trade.confidence }
      let hist2 := capHistory (event :: st.history symbol)
      (some event,
        { active := fun s => if s = symbol then none else st.active s,
          history := fun s => if s = symbol then hist2 else st.history s })

/-- Model of `TradeManager.check_exits`: the four exit checks in source order —
Target Hit, Stop Hit, Time Exit, EOD Exit — with the first match
closing the trade. -/
def check_exits (st : TMState) (now : ℚ) (ist est : LocalTime)
    (current_price : ℚ) (symbol : String) : Option ExitEvent × TMState :=
  match st.active symbol with
  | none => (none, st)
  | some trade =>
      let price := current_price
      let reason : Option String :=
        if trade.side = "BUY" ∧ price ≥ trade.target_price then
          some "Target Hit"
        else if trade.side = "SELL" ∧ price ≤ trade.target_price then
          some "Target Hit"
        else if trade.side = "BUY" ∧ price ≤ trade.stop_loss then
          some "Stop Hit"
        else if trade.side = "SELL" ∧ price ≥ trade.stop_loss then
          some "Stop Hit"
        else if now - trade.entry_time ≥ trade.expected_time_minutes then
          some "Time Exit"
        else check_eod symbol ist est
      match reason with
      | some r => close_trade st now symbol price r
      | none => (none, st)

/-- Model of `TradeManager.get_active`: the stored trade together with the live
`elapsed_minutes` field added to the returned copy. -/
def get_active (st : TMState) (now : ℚ) (symbol : String) :
    Option (Trade × ℚ) :=
  (st.active symbol).map (fun t => (t, pyRound (now - t.entry_time) 1))

/-- A concrete active BUY trade (entry 100, stop 98, target 104) used by
the concrete instantiations below. -/
def tradeB : Trade :=
  { symbol := "TCS.NS", timeframe := "5m", strategy := "EMA Crossover",
    side := "BUY", entry_price := 100, target_price := 104,
    stop_loss := 98, confidence := 68, entry_time := 0,
    expected_time_minutes := 25, expected_bars := 5, rsi := 60, atr := 2,
    status := "ACTIVE" }

/-- A manager state holding `tradeB` as the active trade for TCS.NS. -/
def stB : TMState :=
  { active := fun s => if s = "TCS.NS" then some tradeB else none,
    history := fun _ => [] }

/-- A BUY trade whose stop (105) sits above its target (101), so a tick
between them satisfies the target and stop conditions simultaneously. -/
def tradeX : Trade :=
  { symbol := "INFY.NS", timeframe := "5m", strategy := "EMA Crossover",
    side := "BUY", entry_price := 100, target_price := 101,
    stop_loss := 105, confidence := 68, entry_time := 0,
    expected_time_minutes := 25, expected_bars := 5, rsi := 60, atr := 2,
    status := "ACTIVE" }

/-- A manager state holding `tradeX` as the active trade for INFY.NS. -/
def stX : TMState :=
  { active := fun s => if s = "INFY.NS" then some tradeX else none,
    history := fun _ => [] }

/-- Monday 10:00 local time (before every cutoff). -/
def ltMon10 : LocalTime := ⟨0, 10, 0, 0, 0⟩

/-- A concrete signal for a BUY entry at 100. -/
def sigB : Signal :=
  { type := "BUY", price := 100, sl := 98, tp := 104, rsi := some 60,
    atr := some 2, target_bars := none, bars := none }

/-- Claim C8: for an NSE-style symbol the EOD exit fires exactly when the
Asia/Kolkata local time is on a weekday (Python weekday 0–4, Monday to
Friday) at or past the 15:20 cutoff, and on Saturday or Sunday
(weekday 5 or 6) it never fires, regardless of the time of day. -/
theorem check_eod_nse (symbol : String) (ist est : LocalTime)
    (h : is_nse_symbol symbol = true) :
    (check_eod symbol ist est = some "EOD Exit" ↔
      (ist.weekday < 5 ∧
        (15 < ist.hour ∨ (ist.hour = 15 ∧ 20 ≤ ist.minute)))) ∧
    (5 ≤ ist.weekday → check_eod symbol ist est = none) := by
  have hc : check_eod symbol ist est =
      (if (decide (ist.weekday < 5) && localGeCutoff ist 15 20) = true
       then some "EOD Exit" else none) := by
    simp only [check_eod, h, reduceIte]
  rw [hc]
  have hiff : (decide (ist.weekday < 5) && localGeCutoff ist 15 20) = true ↔
      (ist.weekday < 5 ∧
        (15 < ist.hour ∨ (ist.hour = 15 ∧ 20 ≤ ist.minute))) := by
    simp only [localGeCutoff, Bool.and_eq_true, Bool.or_eq_true,
      decide_eq_true_eq]
  by_cases hb : (decide (ist.weekday < 5) && localGeCutoff ist 15 20) = true
  · rw [if_pos hb]
    have hp := hiff.mp hb
    refine ⟨⟨fun _ => hp, fun _ => rfl⟩, fun hw => absurd hp.1 (by omega)⟩
  · rw [if_neg hb]
    refine ⟨⟨fun he => absurd he (by simp),
      fun hp => absurd (hiff.mpr hp) hb⟩, fun _ => rfl⟩

/-- Witness for C8: TCS.NS (an `.NS` symbol) at Monday 15:20 IST fires
the EOD exit, and at Saturday 23:59 IST it does not. -/
theorem check_eod_nse_witness :
    (check_eod "TCS.NS" ⟨0, 15, 20, 0, 0⟩ ltMon10 = some "EOD Exit" ↔
      ((0 : ℕ) < 5 ∧ (15 < 15 ∨ ((15 : ℕ) = 15 ∧ 20 ≤ 20)))) ∧
    ((5 : ℕ) ≤ 5 → check_eod "TCS.NS" ⟨5, 23, 59, 0, 0⟩ ltMon10 = none) := by
  constructor
  · exact (check_eod_nse "TCS.NS" ⟨0, 15, 20, 0, 0⟩ ltMon10 (by decide)).1
  · exact (check_eod_nse "TCS.NS" ⟨5, 23, 59, 0, 0⟩ ltMon10 (by decide)).2

/-- Claim C4: opening a trade for a symbol that already has an active
trade is a no-op returning `None`: the state is unchanged, and
`get_active` afterwards still returns the original trade. -/
theorem open_trade_noop (st : TMState) (now now2 : ℚ) (sig : Signal)
    (symbol strategy interval : String) (t : Trade)
    (h : st.active symbol = some t) :
    open_trade st now sig symbol strategy interval = (none, st) ∧
    (get_active (open_trade st now sig symbol strategy interval).2 now2
        symbol).map Prod.fst = some t := by
  have h1 : open_trade st now sig symbol strategy interval = (none, st) := by
    unfold open_trade
    rw [h]
  refine ⟨h1, ?_⟩
  rw [h1]
  simp [get_active, h]

/-- Witness for C4 at a concrete state holding an active trade. -/
theorem open_trade_noop_witness :
    open_trade stB 7 sigB "TCS.NS" "EMA Crossover" "5m" = (none, stB) ∧
    (get_active (open_trade stB 7 sigB "TCS.NS" "EMA Crossover" "5m").2 7
        "TCS.NS").map Prod.fst = some tradeB :=
  open_trade_noop stB 7 7 sigB "TCS.NS" "EMA Crossover" "5m" tradeB
    (by simp [stB])

/-- Closing with `_close_trade` on a present trade returns an event carrying exactly
the reason it was called with. -/
theorem close_trade_reason (st : TMState) (now : ℚ) (symbol : String)
    (price : ℚ) (reason : String) (t : Trade)
    (h : st.active symbol = some t) :
    ∃ ev, (close_trade st now symbol price reason).1 = some ev ∧
      ev.exit_reason = reason := by
  unfold close_trade
  rw [h]
  exact ⟨_, rfl, rfl⟩

/-- Claim C3: `check_exits` evaluates the exit conditions in the fixed
order Target Hit, Stop Hit, Time Exit, EOD Exit, and the first match
wins: whenever the target and the stop condition hold simultaneously on
the same tick, the trade closes with reason "Target Hit", never
"Stop Hit". -/
theorem check_exits_target_priority (st : TMState) (now : ℚ)
    (ist est : LocalTime) (price : ℚ) (symbol : String) (t : Trade)
    (h : st.active symbol = some t)
    (htgt : (t.side = "BUY" ∧ price ≥ t.target_price) ∨
            (t.side = "SELL" ∧ price ≤ t.target_price))
    (hstp : (t.side = "BUY" ∧ price ≤ t.stop_loss) ∨
            (t.side = "SELL" ∧ price ≥ t.stop_loss)) :
    ∃ ev, (check_exits st now ist est price symbol).1 = some ev ∧
      ev.exit_reason = "Target Hit" := by
  simp only [check_exits, h]
  rcases htgt with ⟨hs, hp⟩ | ⟨hs, hp⟩
  · rw [if_pos ⟨hs, hp⟩]
    exact close_trade_reason st now symbol price "Target Hit" t h
  · have hns : ¬ (t.side = "BUY" ∧ price ≥ t.target_price) := by
      rintro ⟨hb, -⟩
      rw [hs] at hb
      exact absurd hb (by simp)
    rw [if_neg hns, if_pos ⟨hs, hp⟩]
    exact close_trade_reason st now symbol price "Target Hit" t h

/-- Witness for C3: a tick at 103 simultaneously satisfies the target
(101) and the stop (105) of the BUY trade `tradeX`, and the close reason
is "Target Hit". -/
theorem check_exits_target_priority_witness :
    ∃ ev, (check_exits stX 1 ltMon10 ltMon10 103 "INFY.NS").1 = some ev ∧
      ev.exit_reason = "Target Hit" :=
  check_exits_target_priority stX 1 ltMon10 ltMon10 103 "INFY.NS" tradeX
    (by simp [stX])
    (Or.inl ⟨rfl, by norm_num [tradeX]⟩)
    (Or.inl ⟨rfl, by norm_num [tradeX]⟩)

/-- Claim C9: when the symbol has an active trade and no exit condition
holds — the price neither reaches the target nor the stop, the elapsed
time is below the expected exit time, and the EOD check is silent —
`check_exits` returns `None` and the whole manager state (the active
trade and the history) is exactly unchanged. -/
theorem check_exits_noop (st : TMState) (now : ℚ) (ist est : LocalTime)
    (price : ℚ) (symbol : String) (t : Trade)
    (h : st.active symbol = some t)
    (h1 : ¬ (t.side = "BUY" ∧ price ≥ t.target_price))
    (h2 : ¬ (t.side = "SELL" ∧ price ≤ t.target_price))
    (h3 : ¬ (t.side = "BUY" ∧ price ≤ t.stop_loss))
    (h4 : ¬ (t.side = "SELL" ∧ price ≥ t.stop_loss))
    (h5 : ¬ (now - t.entry_time ≥ t.expected_time_minutes))
    (h6 : check_eod symbol ist est = none) :
    check_exits st now ist est price symbol = (none, st) := by
  simp only [check_exits, h]
  rw [if_neg h1, if_neg h2, if_neg h3, if_neg h4, if_neg h5, h6]

/-- Witness for C9: a tick at 101 on the BUY trade (target 104, stop 98)
one minute after entry, on a Monday morning, changes nothing. -/
theorem check_exits_noop_witness :
    check_exits stB 1 ltMon10 ltMon10 101 "TCS.NS" = (none, stB) :=
  check_exits_noop stB 1 ltMon10 ltMon10 101 "TCS.NS" tradeB
    (by simp [stB])
    (by norm_num [tradeB])
    (by simp [tradeB])
    (by norm_num [tradeB])
    (by simp [tradeB])
    (by norm_num [tradeB])
    (by decide)

/-- Prepending then capping always keeps the new event at the head. -/
theorem capHistory_head (a : ExitEvent) (l : List ExitEvent) :
    (capHistory (a :: l)).head? = some a := by
  unfold capHistory
  by_cases hlen : (a :: l).length > 20
  · rw [if_pos hlen]
    cases l with
    | nil => simp at hlen
    | cons b l' => simp [List.dropLast]
  · rw [if_neg hlen]
    rfl

/-- The capped history length: one more than before, up to the cap 20. -/
theorem capHistory_length (a : ExitEvent) (l : List ExitEvent)
    (h : l.length ≤ 20) :
    (capHistory (a :: l)).length = min (l.length + 1) 20 := by
  unfold capHistory
  by_cases hlen : (a :: l).length > 20
  · rw [if_pos hlen]
    rw [List.length_dropLast]
    simp only [List.length_cons] at hlen ⊢
    omega
  · rw [if_neg hlen]
    simp only [List.length_cons] at hlen ⊢
    omega

/-- Claim C7 (amended): when a trade closes, the recorded P&L is
`exit − entry` for a BUY and `entry − exit` for a SELL, rounded to 4
decimal places (Python `round`), and P&L% is `pnl/entry × 100` rounded
to 2; the closed-trade event is prepended to the symbol's history, whose
length is capped at 20 with the oldest record dropped; and the symbol's
active slot is cleared.  Concretely, the BUY trade entry=100, stop=98,
target=104 hit by a tick at 104.5 closes with reason "Target Hit",
P&L 4.5 and P&L% 4.5 (both exact at this input). -/
theorem close_trade_pnl_history :
    (∀ (st : TMState) (now price : ℚ) (symbol reason : String) (t : Trade),
      st.active symbol = some t →
      (st.history symbol).length ≤ 20 →
      ∃ ev, (close_trade st now symbol price reason).1 = some ev ∧
        ev.pnl = (if t.side = "BUY" then pyRound (price - t.entry_price) 4
                  else pyRound (t.entry_price - price) 4) ∧
        ev.pnl_pct = (if t.entry_price ≠ 0
                      then pyRound (ev.pnl / t.entry_price * 100) 2
                      else 0) ∧
        ((close_trade st now symbol price reason).2.history symbol).head? =
          some ev ∧
        ((close_trade st now symbol price reason).2.history symbol).length =
          min ((st.history symbol).length + 1) 20 ∧
        (close_trade st now symbol price reason).2.active symbol = none) ∧
    (∃ ev, (check_exits stB 1 ltMon10 ltMon10 (104.5 : ℚ) "TCS.NS").1 =
        some ev ∧
      ev.exit_reason = "Target Hit" ∧ ev.pnl = 4.5 ∧ ev.pnl_pct = 4.5) := by
  constructor
  · intro st now price symbol reason t h ht
    simp only [close_trade, h]
    refine ⟨_, rfl, rfl, rfl, ?_, ?_, ?_⟩
    · simp only [eq_self_iff_true, if_true]
      exact capHistory_head _ _
    · simp only [eq_self_iff_true, if_true]
      exact capHistory_length _ _ ht
    · simp only [eq_self_iff_true, if_true]
  · have hev : (check_exits stB 1 ltMon10 ltMon10 (104.5 : ℚ)
        "TCS.NS").1 =
        some { symbol := "TCS.NS", side := "BUY",
               strategy := "EMA Crossover", timeframe := "5m",
               entry_price := 100, exit_price := 104.5,
               target_price := 104, stop_loss := 98,
               exit_reason := "Target Hit", pnl := 4.5, pnl_pct := 4.5,
               duration_minutes := 1, confidence := 68 } := by
      norm_num [check_exits, close_trade, stB, tradeB, pyRound,
        rndHalfEven]
    exact ⟨_, hev, rfl, rfl, rfl⟩

/-- Witness for C7 (amended): the general close semantics instantiated
at the concrete BUY trade state. -/
theorem close_trade_pnl_history_witness :
    ∃ ev, (close_trade stB 1 "TCS.NS" (104.5 : ℚ) "Manual Close").1 =
        some ev ∧
      ev.pnl = (if tradeB.side = "BUY"
                then pyRound ((104.5 : ℚ) - tradeB.entry_price) 4
                else pyRound (tradeB.entry_price - 104.5) 4) ∧
      ev.pnl_pct = (if tradeB.entry_price ≠ 0
                    then pyRound (ev.pnl / tradeB.entry_price * 100) 2
                    else 0) ∧
      ((close_trade stB 1 "TCS.NS" (104.5 : ℚ)
          "Manual Close").2.history "TCS.NS").head? = some ev ∧
      ((close_trade stB 1 "TCS.NS" (104.5 : ℚ)
          "Manual Close").2.history "TCS.NS").length =
        min ((stB.history "TCS.NS").length + 1) 20 ∧
      (close_trade stB 1 "TCS.NS" (104.5 : ℚ)
          "Manual Close").2.active "TCS.NS" = none :=
  close_trade_pnl_history.1 stB 1 104.5 "TCS.NS" "Manual Close" tradeB
    (by simp [stB]) (by simp [stB])

/-- Counterexample to C7 as stated: closing the BUY trade entered at 100
with an exit tick at 104.00001 records P&L 4 (the difference rounded to
4 decimal places), not the exact difference 4.00001. -/
theorem close_trade_pnl_rounding_counterexample :
    ((close_trade stB 1 "TCS.NS" (10400001/100000 : ℚ)
        "Target Hit").1).map ExitEvent.pnl = some 4 ∧
    (4 : ℚ) ≠ 10400001/100000 - 100 := by
  constructor
  · norm_num [close_trade, stB, tradeB, pyRound, rndHalfEven]
  · norm_num
